import Mathlib

set_option maxHeartbeats 1600000

namespace Seedrng

/- ============================================================
   Part 1. The BLAKE2s primitive, translated from seedrng.c.
   Bytes are `Nat` values < 256, 32-bit words are `Nat` values
   reduced modulo 2^32 wherever the C code would overflow.
   ============================================================ -/

def M32 : Nat := 4294967296

/-- Right rotation of a 32-bit word (ror32 in seedrng.c); the C code
    masks the shifted word to 32 bits by the uint32 type. -/
def ror32 (w s : Nat) : Nat := (w >>> s) ||| ((w <<< (32 - s)) % M32)

/-- The BLAKE2s initialization vector (blake2s_iv in seedrng.c). -/
def blake2s_iv : List Nat :=
  [0x6A09E667, 0xBB67AE85, 0x3C6EF372, 0xA54FF53A,
   0x510E527F, 0x9B05688C, 0x1F83D9AB, 0x5BE0CD19]

/-- The message-word selection permutation (blake2s_sigma in seedrng.c). -/
def blake2s_sigma : List (List Nat) :=
  [[0, 1, 2, 3, 4, 5, 6, 7, 8, 9, 10, 11, 12, 13, 14, 15],
   [14, 10, 4, 8, 9, 15, 13, 6, 1, 12, 0, 2, 11, 7, 5, 3],
   [11, 8, 12, 0, 5, 2, 15, 13, 10, 14, 3, 6, 7, 1, 9, 4],
   [7, 9, 3, 1, 13, 12, 11, 14, 2, 6, 5, 10, 4, 0, 15, 8],
   [9, 0, 5, 7, 2, 4, 10, 15, 14, 1, 11, 12, 6, 8, 3, 13],
   [2, 12, 6, 10, 0, 11, 8, 3, 4, 13, 7, 5, 15, 14, 1, 9],
   [12, 5, 1, 15, 14, 13, 4, 10, 0, 7, 6, 3, 9, 2, 8, 11],
   [13, 11, 7, 14, 12, 1, 3, 9, 5, 0, 15, 4, 8, 6, 2, 10],
   [6, 15, 14, 9, 11, 3, 0, 8, 12, 2, 13, 7, 1, 4, 10, 5],
   [10, 2, 8, 4, 7, 6, 1, 5, 15, 11, 9, 14, 3, 12, 13, 0]]

/-- The G mixing function of the compression round (the G macro in
    seedrng.c), acting on four working words and two message words. -/
def blake2sG (a b c d x y : Nat) : Nat × Nat × Nat × Nat :=
  let a := (a + b + x) % M32
  let d := ror32 (d ^^^ a) 16
  let c := (c + d) % M32
  let b := ror32 (b ^^^ c) 12
  let a := (a + b + y) % M32
  let d := ror32 (d ^^^ a) 8
  let c := (c + d) % M32
  let b := ror32 (b ^^^ c) 7
  (a, b, c, d)

/-- One round of the compression function (the ROUND macro in
    seedrng.c): eight sequential applications of G with the word
    wiring of the reference implementation. -/
def blake2sRound (m : List Nat) (r : Nat) (v : List Nat) : List Nat :=
  let sg := blake2s_sigma.getD r []
  let mg : Nat → Nat := fun j => m.getD (sg.getD j 0) 0
  match v with
  | [w0, w1, w2, w3, w4, w5, w6, w7, w8, w9, w10, w11, w12, w13, w14, w15] =>
    let (w0, w4, w8, w12) := blake2sG w0 w4 w8 w12 (mg 0) (mg 1)
    let (w1, w5, w9, w13) := blake2sG w1 w5 w9 w13 (mg 2) (mg 3)
    let (w2, w6, w10, w14) := blake2sG w2 w6 w10 w14 (mg 4) (mg 5)
    let (w3, w7, w11, w15) := blake2sG w3 w7 w11 w15 (mg 6) (mg 7)
    let (w0, w5, w10, w15) := blake2sG w0 w5 w10 w15 (mg 8) (mg 9)
    let (w1, w6, w11, w12) := blake2sG w1 w6 w11 w12 (mg 10) (mg 11)
    let (w2, w7, w8, w13) := blake2sG w2 w7 w8 w13 (mg 12) (mg 13)
    let (w3, w4, w9, w14) := blake2sG w3 w4 w9 w14 (mg 14) (mg 15)
    [w0, w1, w2, w3, w4, w5, w6, w7, w8, w9, w10, w11, w12, w13, w14, w15]
  | _ => v

/-- Little-endian 32-bit load of four bytes at offset `o` of a byte
    list (le32_to_cpu applied to the message block in seedrng.c). -/
def le32At (b : List Nat) (o : Nat) : Nat :=
  b.getD o 0 + 256 * b.getD (o + 1) 0 + 65536 * b.getD (o + 2) 0 +
    16777216 * b.getD (o + 3) 0

/-- The sixteen message words of one 64-byte block. -/
def blockWords (block : List Nat) : List Nat :=
  (List.range 16).map (fun j => le32At block (4 * j))

/-- State of the BLAKE2s hash (struct blake2s_state in seedrng.c).
    `buf` holds the `buflen` buffered bytes. -/
@[ext] structure Blake2sState where
  h : List Nat
  t0 : Nat
  t1 : Nat
  f0 : Nat
  f1 : Nat
  buf : List Nat
  outlen : Nat
deriving DecidableEq, Repr

/-- One iteration of the while loop of blake2s_compress in seedrng.c:
    increment the counter by `inc`, mix one 64-byte block into `h`. -/
def blake2s_compress_block (st : Blake2sState) (block : List Nat) (inc : Nat) : Blake2sState :=
  let i := inc % M32
  let t0 := (st.t0 + i) % M32
  let t1 := (st.t1 + (if t0 < i then 1 else 0)) % M32
  let m := blockWords block
  let v0 : List Nat := st.h ++
    [blake2s_iv.getD 0 0, blake2s_iv.getD 1 0, blake2s_iv.getD 2 0, blake2s_iv.getD 3 0,
     (blake2s_iv.getD 4 0) ^^^ t0, (blake2s_iv.getD 5 0) ^^^ t1,
     (blake2s_iv.getD 6 0) ^^^ st.f0, (blake2s_iv.getD 7 0) ^^^ st.f1]
  let v := (List.range 10).foldl (fun w r => blake2sRound m r w) v0
  { st with
    h := (List.range 8).map (fun j => (st.h.getD j 0) ^^^ ((v.getD j 0) ^^^ (v.getD (j + 8) 0))),
    t0 := t0, t1 := t1 }

/-- blake2s_compress from seedrng.c: process `nblocks` consecutive
    64-byte blocks taken from the front of `data`. -/
def blake2s_compress : Blake2sState → List Nat → Nat → Nat → Blake2sState
  | st, _, 0, _ => st
  | st, data, Nat.succ n, inc =>
      blake2s_compress (blake2s_compress_block st (data.take 64) inc) (data.drop 64) n inc

/-- blake2s_init in seedrng.c (via blake2s_init_param with parameter
    0x01010000 xor-ed into h[0]). -/
def blake2s_init (outlen : Nat) : Blake2sState :=
  { h := [(blake2s_iv.getD 0 0) ^^^ (0x01010000 ||| outlen),
          blake2s_iv.getD 1 0, blake2s_iv.getD 2 0, blake2s_iv.getD 3 0,
          blake2s_iv.getD 4 0, blake2s_iv.getD 5 0, blake2s_iv.getD 6 0,
          blake2s_iv.getD 7 0],
    t0 := 0, t1 := 0, f0 := 0, f1 := 0, buf := [], outlen := outlen }

/-- blake2s_update from seedrng.c.  The C function runs two sequential
    `if` blocks; since the second block's guard can only hold after the
    first block fired (the buffer never holds more than 64 bytes), the
    control flow is rendered as nested branches.  The C code zeroes
    buflen after the first compress and appends the remaining input at
    the end; since the compression never reads the buffer field, the
    net effect on `buf` is written directly in each branch. -/
def blake2s_update (st : Blake2sState) (inp : List Nat) : Blake2sState :=
  if inp.length = 0 then st
  else if 64 - st.buf.length < inp.length then
    let stc := blake2s_compress st (st.buf ++ inp.take (64 - st.buf.length)) 1 64
    let rest := inp.drop (64 - st.buf.length)
    if 64 < rest.length then
      let nb := (rest.length + 64 - 1) / 64
      { blake2s_compress stc rest (nb - 1) 64 with buf := rest.drop (64 * (nb - 1)) }
    else
      { stc with buf := rest }
  else
    { st with buf := st.buf ++ inp }

/-- Little-endian serialization of the state words (cpu_to_le32_array
    followed by the output memcpy in blake2s_final). -/
def le32Bytes (w : Nat) : List Nat :=
  [w % 256, w / 256 % 256, w / 65536 % 256, w / 16777216 % 256]

def wordsToBytes : List Nat → List Nat
  | [] => []
  | w :: ws => le32Bytes w ++ wordsToBytes ws

/-- blake2s_final from seedrng.c: set the last-block flag, zero-pad the
    buffer to a full block, compress with the buffered length as the
    counter increment, serialize `outlen` bytes. -/
def blake2s_final (st : Blake2sState) : List Nat :=
  let st1 : Blake2sState := { st with f0 := M32 - 1 }
  let block := st1.buf ++ List.replicate (64 - st1.buf.length) 0
  let st2 := blake2s_compress st1 block 1 st1.buf.length
  (wordsToBytes st2.h).take st2.outlen

/-- Normal form of the state reached by absorbing `data`: all full
    64-byte blocks of `buf ++ data` except a last non-empty chunk are
    compressed, the remainder is buffered.  Used to reason about
    blake2s_update; `blake2s_update` is proved equal to it below. -/
def absorbSpec (st : Blake2sState) (data : List Nat) : Blake2sState :=
  if data.length = 0 then st
  else
    let s := st.buf ++ data
    let k := (s.length - 1) / 64
    { blake2s_compress st s k 64 with buf := s.drop (64 * k) }

/- ============================================================
   Part 2. Byte encodings and the absorbed stream of one run.
   ============================================================ -/

/-- Little-endian encoding of an 8-byte machine integer, as absorbed
    when main hashes a size_t / ssize_t length field. -/
def le64Bytes (n : Nat) : List Nat :=
  (List.range 8).map (fun j => n / 256 ^ j % 256)

def bytesOfString (s : String) : List Nat := s.data.map Char.toNat

def seedrngPrefixBytes : List Nat := bytesOfString ("SeedRNG v1 Old+New Prefix")

def seedrngFailureBytes : List Nat := bytesOfString ("SeedRNG v1 No New Seed Failure")

/-- The 32 bytes strncpy places into new_seed when generation fails:
    the 30-byte failure string zero-padded to BLAKE2S_HASH_LEN. -/
def failureMarker : List Nat := (seedrngFailureBytes ++ List.replicate 32 0).take 32

/-- A consumed or generated seed as absorbed by main: its 8-byte
    length field followed by its bytes. -/
def lenPayload (s : List Nat) : List Nat := le64Bytes s.length ++ s

/-- The bytes a consume call absorbs: nothing, or a length-prefixed seed. -/
def optPayload : Option (List Nat) → List Nat
  | none => []
  | some s => lenPayload s

/-- The exact byte stream absorbed into the hash by one run of main. -/
def absorbedStream (rt bt : List Nat) (olds : List (List Nat)) (nw : List Nat) : List Nat :=
  seedrngPrefixBytes ++ rt ++ bt ++ (olds.map lenPayload).flatten ++ lenPayload nw

/-- The finalize digest of one run as a function of the absorbed fields. -/
def seedrngDigest (rt bt : List Nat) (olds : List (List Nat)) (nw : List Nat) : List Nat :=
  blake2s_final (blake2s_update (blake2s_init 32) (absorbedStream rt bt olds nw))

/-- Coerce an environment-supplied byte list to exactly `n` bytes, the
    size the corresponding C buffer actually holds. -/
def fitBytes (l : List Nat) (n : Nat) : List Nat := (l ++ List.replicate n 0).take n

/-- In-place overwrite of `repl.length` bytes at offset `pos`, as done
    by the final memcpy of the digest into the new_seed buffer. -/
def overwriteAt (l : List Nat) (pos : Nat) (repl : List Nat) : List Nat :=
  l.take pos ++ repl ++ l.drop (pos + repl.length)

/- ============================================================
   Part 3. The seed directory, consumption, and the orchestrator.
   ============================================================ -/

abbrev Dir := List (String × List Nat)

def dirGet (d : Dir) (n : String) : Option (List Nat) :=
  match d.find? (fun p => p.1 == n) with
  | some p => some p.2
  | none => none

def dirRemove (d : Dir) (n : String) : Dir := d.filter (fun p => p.1 != n)

def dirSet (d : Dir) (n : String) (v : List Nat) : Dir := (n, v) :: dirRemove d n

def nonCreditableSeedName : String := "seed.no-credit"

def creditableSeedName : String := "seed.credit"

/-- Observable external actions of a run. -/
inductive Event where
  | submit (bytes : List Nat) (entropyCount : Nat)
  | writeFile (name : String) (bytes : List Nat)
  | renameFile (src : String) (dst : String)
deriving DecidableEq, Repr

/-- Failure injection for one seed_from_file_if_exists call: whether
    each fallible syscall of that call fails. -/
structure ConsumeEnv where
  openFails : Bool
  readFails : Bool
  unlinkFails : Bool
  fsyncFails : Bool
  submitFails : Bool
deriving DecidableEq, Repr

structure ConsumeOut where
  ok : Bool
  dir : Dir
  hash : Blake2sState
  events : List Event
deriving DecidableEq, Repr

/-- seed_from_file_if_exists from seedrng.c.  An absent file is a
    success with no effect; a present file is read (at most 512 bytes),
    unlinked, absorbed into the hash and submitted to the kernel; if
    the unlink or the directory fsync fails while non-empty data was
    read, the call fails before absorbing or submitting anything. -/
def seed_from_file_if_exists (name : String) (credit : Bool) (ce : ConsumeEnv)
    (d : Dir) (hash : Blake2sState) : ConsumeOut :=
  match dirGet d name with
  | none => ⟨true, d, hash, []⟩
  | some content =>
    if ce.openFails then ⟨false, d, hash, []⟩
    else if ce.readFails then ⟨false, d, hash, []⟩
    else
      let seed := content.take 512
      let len := seed.length
      if ce.unlinkFails then
        if len ≠ 0 then ⟨false, d, hash, []⟩ else ⟨true, d, hash, []⟩
      else
        let d1 := dirRemove d name
        if ce.fsyncFails ∧ len ≠ 0 then ⟨false, d1, hash, []⟩
        else if len = 0 then ⟨true, d1, hash, []⟩
        else
          let hash1 := blake2s_update (blake2s_update hash (le64Bytes len)) seed
          let ev := Event.submit seed (if credit then len * 8 else 0)
          if ce.submitFails then ⟨false, d1, hash1, [ev]⟩
          else ⟨true, d1, hash1, [ev]⟩

/-- The old seed actually absorbed from `name` by a consume call, if any. -/
def consumedSeed (d : Dir) (name : String) (ce : ConsumeEnv) : Option (List Nat) :=
  match dirGet d name with
  | none => none
  | some content =>
    if ce.openFails then none
    else if ce.readFails then none
    else if (ce.unlinkFails || ce.fsyncFails) && !((content.take 512).length = 0) then none
    else if (content.take 512).length = 0 then none
    else some (content.take 512)

/-- Whether a consume call reports failure, as a function of the file
    content (if present) and of the injected syscall outcomes. -/
def consumeFails (content? : Option (List Nat)) (ce : ConsumeEnv) : Bool :=
  match content? with
  | none => false
  | some content =>
    let len := (content.take 512).length
    ce.openFails || ce.readFails ||
      ((ce.unlinkFails || ce.fsyncFails) && !(len = 0)) ||
      (!(len = 0) && ce.submitFails)

/-- ASCII-only lower casing, as C tolower in the C locale. -/
def asciiLowerChar (c : Char) : Char :=
  if 'A' ≤ c ∧ c ≤ 'Z' then Char.ofNat (c.toNat + 32) else c

/-- strcasecmp(a, b) == 0, for the C locale. -/
def strcaseEq (a b : String) : Bool :=
  a.data.map asciiLowerChar == b.data.map asciiLowerChar

/-- skip_credit from seedrng.c, as a function of the value of the
    SEEDRNG_SKIP_CREDIT environment variable. -/
def skip_credit (v : Option String) : Bool :=
  match v with
  | none => false
  | some s =>
      s == "1" || strcaseEq s ("true") || strcaseEq s ("yes") || strcaseEq s ("y")

/-- The activation condition stated by the specification: the variable
    is "1", or case-insensitively "true", "yes" or "y". -/
def skipActiveSpec (v : Option String) : Prop :=
  ∃ s, v = some s ∧
    (s = "1" ∨ s.data.map asciiLowerChar = ("true").data ∨
      s.data.map asciiLowerChar = ("yes").data ∨ s.data.map asciiLowerChar = ("y").data)

/-- determine_optimal_seed_len from seedrng.c, as a function of the
    poolsize (in bits) read from /proc, `none` when the file cannot be
    opened or read. -/
def determine_optimal_seed_len (poolsize : Option Nat) : Nat :=
  let ret : Nat :=
    match poolsize with
    | none => 32
    | some p => (p + 8 - 1) / 8
  if ret < 32 then 32 else if ret > 512 then 512 else ret

/-- External environment of one run of main: the clock snapshots, the
    initial seed directory, the outcome of every fallible syscall, the
    SEEDRNG_SKIP_CREDIT value, and what the entropy adapter delivers. -/
structure Env where
  isRoot : Bool
  mkdirOk : Bool
  lockOk : Bool
  realtimeBytes : List Nat
  boottimeBytes : List Nat
  dir0 : Dir
  ce1 : ConsumeEnv
  ce2 : ConsumeEnv
  skipVar : Option String
  poolsize : Option Nat
  newSeed : Option (List Nat)
  newSeedCreditable : Bool
  openForWriteOk : Bool
  writeOk : Bool
  failedWriteContent : List Nat
  renameOk : Bool
deriving DecidableEq, Repr

structure RunResult where
  exit : Nat
  dir : Dir
  trace : List Event
  digest : Option (List Nat)
  finalBuf : Option (List Nat)
deriving DecidableEq, Repr

/-- Length of the new seed buffer used by the run (clamped pool length
    on generation success, BLAKE2S_HASH_LEN on generation failure). -/
def seedLenOf (env : Env) : Nat :=
  match env.newSeed with
  | some _ => determine_optimal_seed_len env.poolsize
  | none => 32

/-- The new-seed bytes before the digest is stamped in (adapter output
    on success, the failure marker on generation failure). -/
def newContentOf (env : Env) : List Nat :=
  match env.newSeed with
  | some bs => fitBytes bs (determine_optimal_seed_len env.poolsize)
  | none => failureMarker

/-- The old seeds absorbed by the run, in consumption order. -/
def oldsOf (env : Env) : List (List Nat) :=
  (consumedSeed env.dir0 nonCreditableSeedName env.ce1).toList ++
    (consumedSeed env.dir0 creditableSeedName env.ce2).toList

/-- The finalize digest of the run, expressed through the absorbed fields. -/
def digestOf (env : Env) : List Nat :=
  seedrngDigest env.realtimeBytes env.boottimeBytes (oldsOf env) (newContentOf env)

/-- The buffer content persisted by the run: entropy bytes with the
    digest overwriting the trailing 32 bytes. -/
def writtenOf (env : Env) : List Nat :=
  overwriteAt (newContentOf env) (seedLenOf env - 32) (digestOf env)

/-- The hash state after main absorbs the fixed prefix and both
    clock snapshots. -/
def hashAfterClocks (env : Env) : Blake2sState :=
  blake2s_update (blake2s_update (blake2s_update (blake2s_init 32)
    seedrngPrefixBytes) env.realtimeBytes) env.boottimeBytes

/-- The first consume call of main: seed.no-credit, never credited. -/
def consume1 (env : Env) : ConsumeOut :=
  seed_from_file_if_exists nonCreditableSeedName false env.ce1 env.dir0 (hashAfterClocks env)

/-- The second consume call of main: seed.credit, credited unless the
    skip-credit override is active. -/
def consume2 (env : Env) : ConsumeOut :=
  seed_from_file_if_exists creditableSeedName (!skip_credit env.skipVar) env.ce2
    (consume1 env).dir (consume1 env).hash

/-- The hash state right before blake2s_final: the state after the
    consume calls, with the new-seed length and bytes absorbed. -/
def finalHash (env : Env) : Blake2sState :=
  blake2s_update (blake2s_update (consume2 env).hash (le64Bytes (seedLenOf env)))
    (newContentOf env)

/-- main from seedrng.c.  Mirrors the control flow: privilege check,
    hash initialization and clock absorption, directory lock, the two
    consume calls, new-seed generation with the failure-marker
    fallback (seedLenOf / newContentOf), hashing of the new seed,
    finalize into the trailing 32 bytes, persistence and promotion,
    with the documented exit bits. -/
def runSeedrng (env : Env) : RunResult :=
  if !env.isRoot then ⟨1, env.dir0, [], none, none⟩
  else if !env.mkdirOk then ⟨1, env.dir0, [], none, none⟩
  else if !env.lockOk then ⟨1, env.dir0, [], none, none⟩
  else
    let p1 : Nat := if (consume1 env).ok then 0 else 2
    let p2 : Nat := if (consume2 env).ok then 0 else 4
    let p3 : Nat := if env.newSeed = none then 8 else 0
    let digest := blake2s_final (finalHash env)
    let buf := overwriteAt (newContentOf env) (seedLenOf env - 32) digest
    let base := p1 + p2 + p3
    let tr0 := (consume1 env).events ++ (consume2 env).events
    if !env.openForWriteOk then
      ⟨base + 16, (consume2 env).dir, tr0, some digest, some buf⟩
    else if !env.writeOk then
      ⟨base + 32, dirSet (consume2 env).dir nonCreditableSeedName env.failedWriteContent,
        tr0 ++ [Event.writeFile nonCreditableSeedName buf], some digest, some buf⟩
    else
      let dW := dirSet (consume2 env).dir nonCreditableSeedName buf
      let evW := Event.writeFile nonCreditableSeedName buf
      if env.newSeedCreditable then
        if env.renameOk then
          ⟨base, dirSet (dirRemove dW nonCreditableSeedName) creditableSeedName buf,
            tr0 ++ [evW, Event.renameFile nonCreditableSeedName creditableSeedName],
            some digest, some buf⟩
        else
          ⟨base + 64, dW,
            tr0 ++ [evW, Event.renameFile nonCreditableSeedName creditableSeedName],
            some digest, some buf⟩
      else
        ⟨base, dW, tr0 ++ [evW], some digest, some buf⟩

/-- Entropy credit counts of all kernel submissions in a trace. -/
def submitCredits (tr : List Event) : List Nat :=
  tr.filterMap (fun e => match e with | .submit _ c => some c | _ => none)

def hasWriteEvent (tr : List Event) : Bool :=
  tr.any (fun e => match e with | .writeFile _ _ => true | _ => false)

def hasRenameEvent (tr : List Event) : Bool :=
  tr.any (fun e => match e with | .renameFile _ _ => true | _ => false)

def hasSubmitEvent (tr : List Event) : Bool :=
  tr.any (fun e => match e with | .submit _ _ => true | _ => false)

/- ============================================================
   Part 4. The entropy source adapter (read_new_seed).
   ============================================================ -/

/-- Result of a getrandom_full call: all requested bytes, or a failure
    with an errno value. -/
inductive SysRes where
  | ok (bytes : List Nat)
  | err (errno : Nat)
deriving DecidableEq, Repr

def SysRes.isOk : SysRes → Bool
  | .ok _ => true
  | .err _ => false

def ENOSYS : Nat := 38

/-- Outcomes of the individual system interactions inside read_new_seed. -/
structure RngEnv where
  nonblockRes : SysRes
  devRandomOpenOk : Bool
  pollReady : Bool
  insecureRes : SysRes
  urandomOpenOk : Bool
  urandomRes : Option (List Nat)
deriving DecidableEq, Repr

structure RngOut where
  result : Option (List Nat)
  creditable : Bool
deriving DecidableEq, Repr

/-- read_new_seed from seedrng.c.  `creditable` is the final value of
    the is_creditable out-parameter (set even on some failure paths,
    exactly as in the C code). -/
def read_new_seed (env : RngEnv) (len : Nat) : RngOut :=
  match env.nonblockRes with
  | .ok bs => ⟨some (fitBytes bs len), true⟩
  | .err e =>
    if e = ENOSYS then
      if !env.devRandomOpenOk then ⟨none, false⟩
      else
        let cr := env.pollReady
        if !env.urandomOpenOk then ⟨none, cr⟩
        else
          match env.urandomRes with
          | some bs => ⟨some (fitBytes bs len), cr⟩
          | none => ⟨none, cr⟩
    else
      match env.insecureRes with
      | .ok bs => ⟨some (fitBytes bs len), false⟩
      | .err _ =>
        if !env.urandomOpenOk then ⟨none, false⟩
        else
          match env.urandomRes with
          | some bs => ⟨some (fitBytes bs len), false⟩
          | none => ⟨none, false⟩

/- ============================================================
   Part 4b. Concrete environments used to exercise the model.
   ============================================================ -/

def ceOk : ConsumeEnv := ⟨false, false, false, false, false⟩

def ceUnlinkFail : ConsumeEnv := ⟨false, false, true, false, false⟩

/-- A healthy run: root, lock acquired, empty seed directory, 256-bit
    pool, creditable entropy, all persistence syscalls succeed. -/
def envA : Env :=
  { isRoot := true, mkdirOk := true, lockOk := true,
    realtimeBytes := [1, 2, 3, 4], boottimeBytes := [5, 6, 7, 8],
    dir0 := [], ce1 := ceOk, ce2 := ceOk, skipVar := none,
    poolsize := some 256, newSeed := some [9, 9, 9], newSeedCreditable := true,
    openForWriteOk := true, writeOk := true, failedWriteContent := [], renameOk := true }

/-- Same absorbed fields as envA, but different irrelevant fields. -/
def envB : Env := { envA with skipVar := some ("x"), renameOk := false }

/-- A run whose entropy source fails. -/
def envGenFail : Env := { envA with newSeed := none }

/-- A run where only the open-for-write syscall fails. -/
def envOpenFail : Env := { envA with openForWriteOk := false }

/-- A run with the skip-credit override active and a creditable seed
    file present. -/
def envSkip : Env :=
  { envA with skipVar := some ("YES"), dir0 := [(creditableSeedName, [1, 2, 3])] }

/-- The same run without the override. -/
def envNoSkip : Env := { envA with dir0 := [(creditableSeedName, [1, 2, 3])] }

def dirC6 : Dir := [(creditableSeedName, [5, 6, 7])]

def rngA : RngEnv :=
  { nonblockRes := .ok [1, 2, 3], devRandomOpenOk := true, pollReady := false,
    insecureRes := .err 11, urandomOpenOk := true, urandomRes := some [4, 5, 6] }

def rngEnosys : RngEnv :=
  { nonblockRes := .err ENOSYS, devRandomOpenOk := true, pollReady := true,
    insecureRes := .err 11, urandomOpenOk := true, urandomRes := some [4, 5, 6] }

def rngInsecure : RngEnv :=
  { nonblockRes := .err 11, devRandomOpenOk := true, pollReady := false,
    insecureRes := .ok [7, 7], urandomOpenOk := true, urandomRes := some [4, 5, 6] }

def rngDead : RngEnv :=
  { nonblockRes := .err 11, devRandomOpenOk := true, pollReady := false,
    insecureRes := .err 11, urandomOpenOk := true, urandomRes := none }

/- ============================================================
   Part 5. Lemmas about the BLAKE2s buffering discipline.
   ============================================================ -/

theorem compress_block_buf (st : Blake2sState) (b : List Nat) (i : Nat) :
    (blake2s_compress_block st b i).buf = st.buf := rfl

theorem compress_buf (k : Nat) (st : Blake2sState) (data : List Nat) (inc : Nat) :
    (blake2s_compress st data k inc).buf = st.buf := by
  induction k generalizing st data with
  | zero => rfl
  | succ n ih =>
    simp only [blake2s_compress]
    rw [ih, compress_block_buf]

theorem compress_block_setBuf (st : Blake2sState) (x b : List Nat) (i : Nat) :
    blake2s_compress_block { st with buf := x } b i
      = { blake2s_compress_block st b i with buf := x } := rfl

theorem compress_setBuf (k : Nat) (st : Blake2sState) (x data : List Nat) (inc : Nat) :
    blake2s_compress { st with buf := x } data k inc
      = { blake2s_compress st data k inc with buf := x } := by
  induction k generalizing st data with
  | zero => rfl
  | succ n ih =>
    simp only [blake2s_compress]
    rw [compress_block_setBuf, ih]

theorem compress_add (j k : Nat) (st : Blake2sState) (data : List Nat) (inc : Nat) :
    blake2s_compress st data (j + k) inc
      = blake2s_compress (blake2s_compress st data j inc) (data.drop (64 * j)) k inc := by
  induction j generalizing st data with
  | zero => simp [blake2s_compress]
  | succ n ih =>
    have hsucc : Nat.succ n + k = Nat.succ (n + k) := by omega
    rw [hsucc]
    simp only [blake2s_compress]
    rw [ih, List.drop_drop]
    have harith : 64 + 64 * n = 64 * Nat.succ n := by omega
    rw [harith]

theorem compress_congr (k : Nat) (st : Blake2sState) (d₁ d₂ : List Nat) (inc : Nat)
    (h : d₁.take (64 * k) = d₂.take (64 * k)) :
    blake2s_compress st d₁ k inc = blake2s_compress st d₂ k inc := by
  induction k generalizing st d₁ d₂ with
  | zero => rfl
  | succ n ih =>
    have h64 : d₁.take 64 = d₂.take 64 := by
      calc d₁.take 64 = (d₁.take (64 * Nat.succ n)).take 64 := by
            rw [List.take_take]
            congr 1
            omega
        _ = (d₂.take (64 * Nat.succ n)).take 64 := by rw [h]
        _ = d₂.take 64 := by
            rw [List.take_take]
            congr 1
            omega
    have hdrop : (d₁.drop 64).take (64 * n) = (d₂.drop 64).take (64 * n) := by
      have h2 := congrArg (List.drop 64) h
      rw [List.drop_take, List.drop_take] at h2
      have e : 64 * Nat.succ n - 64 = 64 * n := by omega
      rwa [e] at h2
    simp only [blake2s_compress]
    rw [h64]
    exact ih _ _ _ hdrop

theorem take_block_eq (st : Blake2sState) (inp : List Nat) (hb : st.buf.length ≤ 64) :
    st.buf ++ inp.take (64 - st.buf.length) = (st.buf ++ inp).take 64 := by
  rw [List.take_append_eq_append_take, List.take_of_length_le hb]

theorem drop_block_eq (st : Blake2sState) (inp : List Nat) (hb : st.buf.length ≤ 64) :
    (st.buf ++ inp).drop 64 = inp.drop (64 - st.buf.length) := by
  rw [List.drop_append_eq_append_drop, List.drop_eq_nil_of_le hb, List.nil_append]

theorem absorbSpec_ne (st : Blake2sState) (d : List Nat) (h0 : ¬d.length = 0) :
    absorbSpec st d
      = { blake2s_compress st (st.buf ++ d) (((st.buf ++ d).length - 1) / 64) 64 with
          buf := (st.buf ++ d).drop (64 * (((st.buf ++ d).length - 1) / 64)) } := by
  simp [absorbSpec, h0]

theorem update_spec (st : Blake2sState) (inp : List Nat) (hb : st.buf.length ≤ 64) :
    blake2s_update st inp = absorbSpec st inp := by
  by_cases h0 : inp.length = 0
  · simp [blake2s_update, absorbSpec, h0]
  · have hlen : (st.buf ++ inp).length = st.buf.length + inp.length := List.length_append _ _
    rw [absorbSpec_ne st inp h0]
    have hone : blake2s_compress st (st.buf ++ inp.take (64 - st.buf.length)) 1 64
        = blake2s_compress st (st.buf ++ inp) 1 64 := by
      rw [take_block_eq st inp hb]
      apply compress_congr
      rw [List.take_take]
      norm_num
    by_cases h1 : 64 - st.buf.length < inp.length
    · have hr : (inp.drop (64 - st.buf.length)).length
          = inp.length - (64 - st.buf.length) := List.length_drop _ _
      by_cases h2 : 64 < (inp.drop (64 - st.buf.length)).length
      · -- middle blocks fire as well
        simp only [blake2s_update, if_neg h0, if_pos h1, if_pos h2]
        have hk : ((st.buf ++ inp).length - 1) / 64
            = ((inp.drop (64 - st.buf.length)).length + 64 - 1) / 64 := by omega
        rw [hk]
        have hbase := compress_add 1
          ((((inp.drop (64 - st.buf.length)).length + 64 - 1) / 64) - 1) st (st.buf ++ inp) 64
        have e1 : 1 + ((((inp.drop (64 - st.buf.length)).length + 64 - 1) / 64) - 1)
            = (((inp.drop (64 - st.buf.length)).length + 64 - 1) / 64) := by omega
        rw [e1, show (64 : Nat) * 1 = 64 from rfl, drop_block_eq st inp hb, ← hone] at hbase
        have hbuf : (st.buf ++ inp).drop
              (64 * ((((inp.drop (64 - st.buf.length)).length + 64 - 1) / 64)))
            = (inp.drop (64 - st.buf.length)).drop
              (64 * ((((inp.drop (64 - st.buf.length)).length + 64 - 1) / 64) - 1)) := by
          have e2 : (st.buf ++ inp).drop
                (64 * ((((inp.drop (64 - st.buf.length)).length + 64 - 1) / 64)))
              = inp.drop
                (64 * ((((inp.drop (64 - st.buf.length)).length + 64 - 1) / 64))
                  - st.buf.length) := by
            rw [List.drop_append_eq_append_drop, List.drop_eq_nil_of_le (by omega),
              List.nil_append]
          rw [e2, List.drop_drop]
          congr 1
          omega
        rw [hbase, hbuf]
      · -- only the first block fires
        simp only [blake2s_update, if_neg h0, if_pos h1, if_neg h2]
        have hk : ((st.buf ++ inp).length - 1) / 64 = 1 := by omega
        rw [hk, hone]
        have hdropone : (st.buf ++ inp).drop (64 * 1) = inp.drop (64 - st.buf.length) := by
          rw [show (64 : Nat) * 1 = 64 from rfl, drop_block_eq st inp hb]
        rw [hdropone]
    · -- everything fits in the buffer
      simp only [blake2s_update, if_neg h0, if_neg h1]
      have hk : ((st.buf ++ inp).length - 1) / 64 = 0 := by omega
      rw [hk]
      simp [blake2s_compress]

theorem absorbSpec_wf (st : Blake2sState) (d : List Nat) (hb : st.buf.length ≤ 64) :
    (absorbSpec st d).buf.length ≤ 64 := by
  by_cases h0 : d.length = 0
  · simpa [absorbSpec, h0] using hb
  · rw [absorbSpec_ne st d h0]
    have hlen : (st.buf ++ d).length = st.buf.length + d.length := List.length_append _ _
    simp only [List.length_drop]
    omega

theorem absorbSpec_append (st : Blake2sState) (a b : List Nat) :
    absorbSpec (absorbSpec st a) b = absorbSpec st (a ++ b) := by
  by_cases ha : a.length = 0
  · have ha' : a = [] := List.length_eq_zero.mp ha
    subst ha'
    simp [absorbSpec]
  · by_cases hbb : b.length = 0
    · have hb' : b = [] := List.length_eq_zero.mp hbb
      subst hb'
      simp [absorbSpec]
    · have hab : ¬(a ++ b).length = 0 := by
        simp only [List.length_append]
        omega
      have hlena : (st.buf ++ a).length = st.buf.length + a.length := List.length_append _ _
      rw [absorbSpec_ne st a ha, absorbSpec_ne _ b hbb, absorbSpec_ne st (a ++ b) hab]
      dsimp only
      have hassoc : st.buf ++ (a ++ b) = st.buf ++ a ++ b := (List.append_assoc _ _ _).symm
      rw [hassoc]
      have hXb : (st.buf ++ a ++ b).drop (64 * (((st.buf ++ a).length - 1) / 64))
          = (st.buf ++ a).drop (64 * (((st.buf ++ a).length - 1) / 64)) ++ b :=
        List.drop_append_of_le_length (by omega)
      rw [← hXb]
      rw [compress_setBuf]
      have hC : blake2s_compress st (st.buf ++ a) (((st.buf ++ a).length - 1) / 64) 64
          = blake2s_compress st (st.buf ++ a ++ b) (((st.buf ++ a).length - 1) / 64) 64 := by
        apply compress_congr
        exact (List.take_append_of_le_length (by omega)).symm
      rw [hC, ← compress_add, List.drop_drop]
      have hks : (((st.buf ++ a).length - 1) / 64)
            + (((st.buf ++ a ++ b).drop
                (64 * (((st.buf ++ a).length - 1) / 64))).length - 1) / 64
          = ((st.buf ++ a ++ b).length - 1) / 64 := by
        simp only [List.length_drop, List.length_append]
        omega
      rw [← Nat.mul_add, hks]

theorem update_wf (st : Blake2sState) (d : List Nat) (hb : st.buf.length ≤ 64) :
    (blake2s_update st d).buf.length ≤ 64 := by
  rw [update_spec st d hb]
  exact absorbSpec_wf st d hb

theorem update_append (st : Blake2sState) (a b : List Nat) (hb : st.buf.length ≤ 64) :
    blake2s_update (blake2s_update st a) b = blake2s_update st (a ++ b) := by
  rw [update_spec st a hb, update_spec _ b (absorbSpec_wf st a hb),
    update_spec st (a ++ b) hb, absorbSpec_append]

theorem foldl_update (l : List (List Nat)) (s : Blake2sState) (hb : s.buf.length ≤ 64) :
    l.foldl blake2s_update s = blake2s_update s l.flatten := by
  induction l generalizing s with
  | nil => simp [blake2s_update]
  | cons a t ih =>
    simp only [List.foldl_cons, List.flatten_cons]
    rw [ih (blake2s_update s a) (update_wf s a hb), update_append s a t.flatten hb]

theorem compress_block_h_len (st : Blake2sState) (b : List Nat) (i : Nat) :
    (blake2s_compress_block st b i).h.length = 8 := by
  simp [blake2s_compress_block]

theorem compress_h_len (k : Nat) (st : Blake2sState) (data : List Nat) (inc : Nat)
    (h8 : st.h.length = 8) : (blake2s_compress st data k inc).h.length = 8 := by
  induction k generalizing st data with
  | zero => exact h8
  | succ n ih =>
    simp only [blake2s_compress]
    exact ih _ _ (compress_block_h_len _ _ _)

theorem compress_block_outlen (st : Blake2sState) (b : List Nat) (i : Nat) :
    (blake2s_compress_block st b i).outlen = st.outlen := rfl

theorem compress_outlen (k : Nat) (st : Blake2sState) (data : List Nat) (inc : Nat) :
    (blake2s_compress st data k inc).outlen = st.outlen := by
  induction k generalizing st data with
  | zero => rfl
  | succ n ih =>
    simp only [blake2s_compress]
    rw [ih, compress_block_outlen]

theorem update_outlen (st : Blake2sState) (d : List Nat) (hb : st.buf.length ≤ 64) :
    (blake2s_update st d).outlen = st.outlen := by
  rw [update_spec st d hb]
  by_cases h0 : d.length = 0
  · simp [absorbSpec, h0]
  · rw [absorbSpec_ne st d h0]
    exact compress_outlen _ _ _ _

theorem wordsToBytes_length (ws : List Nat) : (wordsToBytes ws).length = 4 * ws.length := by
  induction ws with
  | nil => rfl
  | cons w t ih => simp [wordsToBytes, le32Bytes, ih]; omega

theorem final_length (st : Blake2sState) (hout : st.outlen = 32) :
    (blake2s_final st).length = 32 := by
  simp only [blake2s_final, blake2s_compress]
  rw [List.length_take, wordsToBytes_length, compress_block_h_len, compress_block_outlen]
  simp [hout]

/- ============================================================
   Part 6. Lemmas about the seed directory and consumption.
   ============================================================ -/

theorem dirRemove_get_self (d : Dir) (n : String) : dirGet (dirRemove d n) n = none := by
  induction d with
  | nil => rfl
  | cons p t ih =>
    by_cases h : p.1 = n
    · simpa [dirRemove, List.filter_cons, h] using ih
    · simpa [dirRemove, dirGet, List.filter_cons, List.find?_cons, h] using ih

theorem dirRemove_get_ne (d : Dir) (n m : String) (h : ¬m = n) :
    dirGet (dirRemove d n) m = dirGet d m := by
  induction d with
  | nil => rfl
  | cons p t ih =>
    have hnm : ¬n = m := fun he => h he.symm
    by_cases hp : p.1 = n
    · have hm : ¬p.1 = m := fun he => h (by rw [← he, hp])
      simpa [dirRemove, dirGet, List.filter_cons, List.find?_cons, hp, hm, h, hnm] using ih
    · by_cases hm : p.1 = m
      · simp [dirRemove, dirGet, List.filter_cons, List.find?_cons, hp, hm, h, hnm]
      · simpa [dirRemove, dirGet, List.filter_cons, List.find?_cons, hp, hm, h, hnm] using ih

theorem dirSet_get_self (d : Dir) (n : String) (v : List Nat) :
    dirGet (dirSet d n v) n = some v := by
  simp [dirGet, dirSet, List.find?_cons]

theorem dirSet_get_ne (d : Dir) (n m : String) (v : List Nat) (h : ¬m = n) :
    dirGet (dirSet d n v) m = dirGet d m := by
  simp only [dirSet, dirGet, List.find?_cons]
  have : (n == m) = false := by
    simp only [beq_eq_false_iff_ne, ne_eq]
    intro he
    exact h he.symm
  simp only [this]
  exact dirRemove_get_ne d n m h

theorem update_nil (st : Blake2sState) : blake2s_update st [] = st := by
  simp [blake2s_update]

theorem init_buf (o : Nat) : (blake2s_init o).buf = [] := rfl

theorem init_wf (o : Nat) : (blake2s_init o).buf.length ≤ 64 := by simp [init_buf]

theorem consume_hash (name : String) (credit : Bool) (ce : ConsumeEnv) (d : Dir)
    (hash : Blake2sState) (hb : hash.buf.length ≤ 64) :
    (seed_from_file_if_exists name credit ce d hash).hash
      = blake2s_update hash (optPayload (consumedSeed d name ce)) := by
  cases hd : dirGet d name with
  | none => simp [seed_from_file_if_exists, consumedSeed, hd, optPayload, update_nil]
  | some content =>
    by_cases h1 : ce.openFails
    · simp [seed_from_file_if_exists, consumedSeed, hd, h1, optPayload, update_nil]
    · by_cases h2 : ce.readFails
      · simp [seed_from_file_if_exists, consumedSeed, hd, h1, h2, optPayload, update_nil]
      · by_cases h3 : ce.unlinkFails
        · by_cases h5 : content = [] <;>
            simp [seed_from_file_if_exists, consumedSeed, hd, h1, h2, h3, h5, optPayload,
              update_nil]
        · by_cases h4 : ce.fsyncFails
          · by_cases h5 : content = [] <;>
              simp [seed_from_file_if_exists, consumedSeed, hd, h1, h2, h3, h4, h5, optPayload,
                update_nil]
          · by_cases h5 : content = []
            · simp [seed_from_file_if_exists, consumedSeed, hd, h1, h2, h3, h4, h5, optPayload,
                update_nil]
            · by_cases h6 : ce.submitFails <;>
                simp [seed_from_file_if_exists, consumedSeed, hd, h1, h2, h3, h4, h5, h6,
                  optPayload, lenPayload, update_append hash _ _ hb]

theorem consume_wf (name : String) (credit : Bool) (ce : ConsumeEnv) (d : Dir)
    (hash : Blake2sState) (hb : hash.buf.length ≤ 64) :
    (seed_from_file_if_exists name credit ce d hash).hash.buf.length ≤ 64 := by
  rw [consume_hash name credit ce d hash hb]
  exact update_wf _ _ hb

theorem consume_dir_ne (name : String) (credit : Bool) (ce : ConsumeEnv) (d : Dir)
    (hash : Blake2sState) (m : String) (h : ¬m = name) :
    dirGet (seed_from_file_if_exists name credit ce d hash).dir m = dirGet d m := by
  cases hd : dirGet d name with
  | none => simp [seed_from_file_if_exists, hd]
  | some content =>
    by_cases h1 : ce.openFails <;> by_cases h2 : ce.readFails <;>
      by_cases h3 : ce.unlinkFails <;> by_cases h4 : ce.fsyncFails <;>
      by_cases h5 : content = [] <;> by_cases h6 : ce.submitFails <;>
      simp [seed_from_file_if_exists, hd, h1, h2, h3, h4, h5, h6, dirRemove_get_ne d name m h]

theorem consumedSeed_congr (d d' : Dir) (name : String) (ce : ConsumeEnv)
    (h : dirGet d name = dirGet d' name) :
    consumedSeed d name ce = consumedSeed d' name ce := by
  simp [consumedSeed, h]

theorem consume_ok (name : String) (credit : Bool) (ce : ConsumeEnv) (d : Dir)
    (hash : Blake2sState) :
    (seed_from_file_if_exists name credit ce d hash).ok
      = !consumeFails (dirGet d name) ce := by
  cases hd : dirGet d name with
  | none => simp [seed_from_file_if_exists, consumeFails, hd]
  | some content =>
    by_cases h1 : ce.openFails <;> by_cases h2 : ce.readFails <;>
      by_cases h3 : ce.unlinkFails <;> by_cases h4 : ce.fsyncFails <;>
      by_cases h5 : content = [] <;> by_cases h6 : ce.submitFails <;>
      simp [seed_from_file_if_exists, consumeFails, hd, h1, h2, h3, h4, h5, h6]

theorem consume_credit_false_zero (name : String) (ce : ConsumeEnv) (d : Dir)
    (hash : Blake2sState) (c : Nat)
    (hc : c ∈ submitCredits (seed_from_file_if_exists name false ce d hash).events) :
    c = 0 := by
  cases hd : dirGet d name with
  | none => simp [seed_from_file_if_exists, hd, submitCredits] at hc
  | some content =>
    by_cases h1 : ce.openFails <;> by_cases h2 : ce.readFails <;>
      by_cases h3 : ce.unlinkFails <;> by_cases h4 : ce.fsyncFails <;>
      by_cases h5 : content = [] <;> by_cases h6 : ce.submitFails <;>
      simp [seed_from_file_if_exists, hd, h1, h2, h3, h4, h5, h6, submitCredits] at hc <;>
      omega

theorem consume_submit_mem (name : String) (credit : Bool) (ce : ConsumeEnv) (d : Dir)
    (hash : Blake2sState) (content : List Nat)
    (hd : dirGet d name = some content)
    (h1 : ce.openFails = false) (h2 : ce.readFails = false) (h3 : ce.unlinkFails = false)
    (h4 : ce.fsyncFails = false) (h5 : ¬content = []) :
    Event.submit (content.take 512) (if credit then (content.take 512).length * 8 else 0)
      ∈ (seed_from_file_if_exists name credit ce d hash).events := by
  by_cases h6 : ce.submitFails <;>
    simp [seed_from_file_if_exists, hd, h1, h2, h3, h4, h5, h6]

theorem consume_no_write (name : String) (credit : Bool) (ce : ConsumeEnv) (d : Dir)
    (hash : Blake2sState) :
    hasWriteEvent (seed_from_file_if_exists name credit ce d hash).events = false := by
  cases hd : dirGet d name with
  | none => simp [seed_from_file_if_exists, hd, hasWriteEvent]
  | some content =>
    by_cases h1 : ce.openFails <;> by_cases h2 : ce.readFails <;>
      by_cases h3 : ce.unlinkFails <;> by_cases h4 : ce.fsyncFails <;>
      by_cases h5 : content = [] <;> by_cases h6 : ce.submitFails <;>
      simp [seed_from_file_if_exists, hd, h1, h2, h3, h4, h5, h6, hasWriteEvent]

theorem consume_no_rename (name : String) (credit : Bool) (ce : ConsumeEnv) (d : Dir)
    (hash : Blake2sState) :
    hasRenameEvent (seed_from_file_if_exists name credit ce d hash).events = false := by
  cases hd : dirGet d name with
  | none => simp [seed_from_file_if_exists, hd, hasRenameEvent]
  | some content =>
    by_cases h1 : ce.openFails <;> by_cases h2 : ce.readFails <;>
      by_cases h3 : ce.unlinkFails <;> by_cases h4 : ce.fsyncFails <;>
      by_cases h5 : content = [] <;> by_cases h6 : ce.submitFails <;>
      simp [seed_from_file_if_exists, hd, h1, h2, h3, h4, h5, h6, hasRenameEvent]

/- ============================================================
   Part 7. Lemmas about the orchestrator run.
   ============================================================ -/

theorem fitBytes_length (l : List Nat) (n : Nat) : (fitBytes l n).length = n := by
  simp [fitBytes]

theorem failureMarker_length : failureMarker.length = 32 := rfl

theorem seedLen_eq_content_length (env : Env) :
    seedLenOf env = (newContentOf env).length := by
  cases h : env.newSeed with
  | none => simp [seedLenOf, newContentOf, h, failureMarker_length]
  | some bs => simp [seedLenOf, newContentOf, h, fitBytes_length]

theorem optPayload_toList (o : Option (List Nat)) :
    (o.toList.map lenPayload).flatten = optPayload o := by
  cases o <;> simp [optPayload]

theorem hashAfterClocks_eq (env : Env) :
    hashAfterClocks env = blake2s_update (blake2s_init 32)
      (seedrngPrefixBytes ++ (env.realtimeBytes ++ env.boottimeBytes)) := by
  unfold hashAfterClocks
  rw [update_append _ _ _ (init_wf 32), update_append _ _ _ (init_wf 32),
    List.append_assoc]

theorem hashAfterClocks_wf (env : Env) : (hashAfterClocks env).buf.length ≤ 64 := by
  rw [hashAfterClocks_eq]
  exact update_wf _ _ (init_wf 32)

theorem cred_ne_noncred : ¬creditableSeedName = nonCreditableSeedName := by decide

theorem consume1_hash (env : Env) :
    (consume1 env).hash = blake2s_update (hashAfterClocks env)
      (optPayload (consumedSeed env.dir0 nonCreditableSeedName env.ce1)) :=
  consume_hash _ _ _ _ _ (hashAfterClocks_wf env)

theorem consume1_wf (env : Env) : (consume1 env).hash.buf.length ≤ 64 :=
  consume_wf _ _ _ _ _ (hashAfterClocks_wf env)

theorem consume2_dirGet (env : Env) :
    dirGet (consume1 env).dir creditableSeedName = dirGet env.dir0 creditableSeedName :=
  consume_dir_ne _ _ _ _ _ _ cred_ne_noncred

theorem consume2_hash (env : Env) :
    (consume2 env).hash = blake2s_update (consume1 env).hash
      (optPayload (consumedSeed env.dir0 creditableSeedName env.ce2)) := by
  unfold consume2
  rw [consume_hash _ _ _ _ _ (consume1_wf env),
    consumedSeed_congr _ env.dir0 _ env.ce2 (consume2_dirGet env)]

theorem consume2_wf (env : Env) : (consume2 env).hash.buf.length ≤ 64 := by
  rw [consume2_hash]
  exact update_wf _ _ (consume1_wf env)

theorem finalHash_stream (env : Env) :
    finalHash env = blake2s_update (blake2s_init 32)
      (absorbedStream env.realtimeBytes env.boottimeBytes (oldsOf env) (newContentOf env)) := by
  unfold finalHash
  rw [consume2_hash, consume1_hash, hashAfterClocks_eq]
  rw [update_append _ _ _ (init_wf 32), update_append _ _ _ (init_wf 32),
    update_append _ _ _ (init_wf 32), update_append _ _ _ (init_wf 32)]
  congr 1
  rw [seedLen_eq_content_length]
  simp [absorbedStream, oldsOf, optPayload_toList, lenPayload, List.append_assoc]

theorem finalHash_digest (env : Env) :
    blake2s_final (finalHash env) = digestOf env := by
  rw [finalHash_stream]
  rfl

theorem run_digest (env : Env) (h1 : env.isRoot = true) (h2 : env.mkdirOk = true)
    (h3 : env.lockOk = true) :
    (runSeedrng env).digest = some (digestOf env) := by
  simp only [runSeedrng, h1, h2, h3, Bool.not_true, Bool.false_eq_true, if_false]
  split <;> try split <;> try split <;> try split
  all_goals simp [finalHash_digest]

theorem run_finalBuf (env : Env) (h1 : env.isRoot = true) (h2 : env.mkdirOk = true)
    (h3 : env.lockOk = true) :
    (runSeedrng env).finalBuf = some (writtenOf env) := by
  simp only [runSeedrng, h1, h2, h3, Bool.not_true, Bool.false_eq_true, if_false]
  split <;> try split <;> try split <;> try split
  all_goals simp [writtenOf, finalHash_digest]

theorem consume1_ok (env : Env) :
    (consume1 env).ok = !consumeFails (dirGet env.dir0 nonCreditableSeedName) env.ce1 :=
  consume_ok _ _ _ _ _

theorem consume2_ok (env : Env) :
    (consume2 env).ok = !consumeFails (dirGet env.dir0 creditableSeedName) env.ce2 := by
  unfold consume2
  rw [consume_ok, consume2_dirGet]

theorem run_fatal (env : Env)
    (h : env.isRoot = false ∨ env.mkdirOk = false ∨ env.lockOk = false) :
    runSeedrng env = ⟨1, env.dir0, [], none, none⟩ := by
  rcases h with h | h | h
  · simp [runSeedrng, h]
  · by_cases hr : env.isRoot <;> simp [runSeedrng, h, hr]
  · by_cases hr : env.isRoot <;> by_cases hm : env.mkdirOk <;> simp [runSeedrng, h, hr, hm]

theorem run_exit (env : Env) (h1 : env.isRoot = true) (h2 : env.mkdirOk = true)
    (h3 : env.lockOk = true) :
    (runSeedrng env).exit
      = (if consumeFails (dirGet env.dir0 nonCreditableSeedName) env.ce1 then 2 else 0)
        + (if consumeFails (dirGet env.dir0 creditableSeedName) env.ce2 then 4 else 0)
        + (if env.newSeed = none then 8 else 0)
        + (if env.openForWriteOk then 0 else 16)
        + (if env.openForWriteOk = true ∧ env.writeOk = false then 32 else 0)
        + (if env.openForWriteOk = true ∧ env.writeOk = true ∧ env.newSeedCreditable = true
              ∧ env.renameOk = false then 64 else 0) := by
  by_cases ho : env.openForWriteOk <;> by_cases hw : env.writeOk <;>
    by_cases hc : env.newSeedCreditable <;> by_cases hr : env.renameOk <;>
    by_cases f1 : consumeFails (dirGet env.dir0 nonCreditableSeedName) env.ce1 <;>
    by_cases f2 : consumeFails (dirGet env.dir0 creditableSeedName) env.ce2 <;>
    by_cases f3 : env.newSeed = none <;>
    simp [runSeedrng, h1, h2, h3, consume1_ok, consume2_ok, ho, hw, hc, hr, f1, f2, f3]

theorem run_write_attempt (env : Env) (h1 : env.isRoot = true) (h2 : env.mkdirOk = true)
    (h3 : env.lockOk = true) :
    hasWriteEvent (runSeedrng env).trace = env.openForWriteOk := by
  have hc1 : hasWriteEvent (consume1 env).events = false := consume_no_write _ _ _ _ _
  have hc2 : hasWriteEvent (consume2 env).events = false := consume_no_write _ _ _ _ _
  simp only [hasWriteEvent] at hc1 hc2
  by_cases ho : env.openForWriteOk <;> by_cases hw : env.writeOk <;>
    by_cases hcr : env.newSeedCreditable <;> by_cases hr : env.renameOk <;>
    simp [runSeedrng, h1, h2, h3, ho, hw, hcr, hr, hasWriteEvent, hc1, hc2]

theorem run_rename_attempt (env : Env) (h1 : env.isRoot = true) (h2 : env.mkdirOk = true)
    (h3 : env.lockOk = true) :
    hasRenameEvent (runSeedrng env).trace
      = (env.openForWriteOk && (env.writeOk && env.newSeedCreditable)) := by
  have hc1 : hasRenameEvent (consume1 env).events = false := consume_no_rename _ _ _ _ _
  have hc2 : hasRenameEvent (consume2 env).events = false := consume_no_rename _ _ _ _ _
  simp only [hasRenameEvent] at hc1 hc2
  by_cases ho : env.openForWriteOk <;> by_cases hw : env.writeOk <;>
    by_cases hcr : env.newSeedCreditable <;> by_cases hr : env.renameOk <;>
    simp [runSeedrng, h1, h2, h3, ho, hw, hcr, hr, hasRenameEvent, hc1, hc2]

theorem run_trace_submits (env : Env) (h1 : env.isRoot = true) (h2 : env.mkdirOk = true)
    (h3 : env.lockOk = true) :
    submitCredits (runSeedrng env).trace
      = submitCredits (consume1 env).events ++ submitCredits (consume2 env).events := by
  by_cases ho : env.openForWriteOk <;> by_cases hw : env.writeOk <;>
    by_cases hcr : env.newSeedCreditable <;> by_cases hr : env.renameOk <;>
    simp [runSeedrng, h1, h2, h3, ho, hw, hcr, hr, submitCredits]

theorem consume_absent (name : String) (credit : Bool) (ce : ConsumeEnv) (d : Dir)
    (hash : Blake2sState) (hd : dirGet d name = none) :
    seed_from_file_if_exists name credit ce d hash = ⟨true, d, hash, []⟩ := by
  simp [seed_from_file_if_exists, hd]

theorem update_init_outlen (s : List Nat) :
    (blake2s_update (blake2s_init 32) s).outlen = 32 :=
  update_outlen _ _ (init_wf 32)

theorem digestOf_length (env : Env) : (digestOf env).length = 32 :=
  final_length _ (update_init_outlen _)

theorem seedLen_ge (env : Env) : 32 ≤ seedLenOf env := by
  cases h : env.newSeed <;>
    simp [seedLenOf, h, determine_optimal_seed_len] <;> split_ifs <;> omega

theorem overwriteAt_spec (l r : List Nat) (pos : Nat) (h : pos + r.length = l.length) :
    (overwriteAt l pos r).length = l.length
    ∧ (overwriteAt l pos r).take pos = l.take pos
    ∧ (overwriteAt l pos r).drop pos = r := by
  unfold overwriteAt
  have h1 : l.drop (pos + r.length) = [] := List.drop_eq_nil_of_le (by omega)
  rw [h1, List.append_nil]
  have hlt : (l.take pos).length = pos := by
    rw [List.length_take]
    omega
  refine ⟨?_, ?_, ?_⟩
  · rw [List.length_append, hlt]
    omega
  · rw [List.take_append_of_le_length (by omega), List.take_take, min_self]
  · rw [List.drop_append_eq_append_drop, List.drop_eq_nil_of_le (by omega), hlt,
      Nat.sub_self, List.drop_zero, List.nil_append]

theorem written_frame (env : Env) :
    (writtenOf env).length = seedLenOf env
    ∧ (writtenOf env).take (seedLenOf env - 32)
        = (newContentOf env).take (seedLenOf env - 32)
    ∧ (writtenOf env).drop (seedLenOf env - 32) = digestOf env := by
  have h := overwriteAt_spec (newContentOf env) (digestOf env) (seedLenOf env - 32)
    (by rw [digestOf_length, ← seedLen_eq_content_length]
        have := seedLen_ge env
        omega)
  rw [← seedLen_eq_content_length] at h
  exact h

theorem run_write_mem (env : Env) (h1 : env.isRoot = true) (h2 : env.mkdirOk = true)
    (h3 : env.lockOk = true) (ho : env.openForWriteOk = true) (hw : env.writeOk = true) :
    Event.writeFile nonCreditableSeedName (writtenOf env) ∈ (runSeedrng env).trace := by
  by_cases hcr : env.newSeedCreditable <;> by_cases hr : env.renameOk <;>
    simp [runSeedrng, h1, h2, h3, ho, hw, hcr, hr, writtenOf, finalHash_digest]

theorem run_trace_mem (env : Env) (h1 : env.isRoot = true) (h2 : env.mkdirOk = true)
    (h3 : env.lockOk = true) (e : Event) (he : e ∈ (consume2 env).events) :
    e ∈ (runSeedrng env).trace := by
  by_cases ho : env.openForWriteOk <;> by_cases hw : env.writeOk <;>
    by_cases hcr : env.newSeedCreditable <;> by_cases hr : env.renameOk <;>
    simp [runSeedrng, h1, h2, h3, ho, hw, hcr, hr, he]

/- ============================================================
   Part 8. The claims.
   ============================================================ -/

/-- Claim C10: for every hash state with a well-formed buffer (the C
    invariant buflen ≤ 64) and all byte strings a and b, updating with
    a then with b equals a single update with a ++ b; consequently the
    finalize digest depends only on the concatenated absorbed stream,
    not on how callers chunk their update calls. -/
theorem claim10_update_hom (s : Blake2sState) (a b : List Nat) (hs : s.buf.length ≤ 64) :
    blake2s_update (blake2s_update s a) b = blake2s_update s (a ++ b)
    ∧ ∀ chunks : List (List Nat),
        blake2s_final (chunks.foldl blake2s_update (blake2s_init 32))
          = blake2s_final (blake2s_update (blake2s_init 32) chunks.flatten) := by
  refine ⟨update_append s a b hs, fun chunks => ?_⟩
  rw [foldl_update chunks _ (init_wf 32)]

theorem claim10_witness :
    (blake2s_init 32).buf.length ≤ 64
    ∧ blake2s_update (blake2s_update (blake2s_init 32) [1, 2]) [3]
        = blake2s_update (blake2s_init 32) ([1, 2] ++ [3]) :=
  ⟨by decide, (claim10_update_hom (blake2s_init 32) [1, 2] [3] (by decide)).1⟩

/-- Claim C1: on every run that reaches the hashing phase, the
    finalize digest is exactly seedrngDigest applied to (wall-clock
    bytes, boot-time bytes, the consumed old seeds in consumption
    order, the new-seed content) — i.e. the digest of the stream that
    absorbs the fixed prefix, the two time snapshots, each old seed's
    length then bytes, and the new seed's length then bytes, in that
    order; hence two runs that absorb identical values for these
    fields produce byte-identical digests. -/
theorem claim1_digest_determinism (env env' : Env)
    (h1 : env.isRoot = true) (h2 : env.mkdirOk = true) (h3 : env.lockOk = true)
    (h1' : env'.isRoot = true) (h2' : env'.mkdirOk = true) (h3' : env'.lockOk = true) :
    (runSeedrng env).digest
      = some (seedrngDigest env.realtimeBytes env.boottimeBytes (oldsOf env)
          (newContentOf env))
    ∧ (env.realtimeBytes = env'.realtimeBytes → env.boottimeBytes = env'.boottimeBytes →
        oldsOf env = oldsOf env' → newContentOf env = newContentOf env' →
        (runSeedrng env).digest = (runSeedrng env').digest)
    ∧ (seedrngDigest env.realtimeBytes env.boottimeBytes (oldsOf env)
        (newContentOf env)).length = 32 := by
  refine ⟨?_, ?_, ?_⟩
  · simpa [digestOf] using run_digest env h1 h2 h3
  · intro e1 e2 e3 e4
    rw [run_digest env h1 h2 h3, run_digest env' h1' h2' h3']
    simp [digestOf, e1, e2, e3, e4]
  · simpa [digestOf] using digestOf_length env

theorem claim1_witness :
    envA.isRoot = true
    ∧ (runSeedrng envA).digest
        = some (seedrngDigest envA.realtimeBytes envA.boottimeBytes (oldsOf envA)
            (newContentOf envA))
    ∧ (runSeedrng envA).digest = (runSeedrng envB).digest := by
  have h := claim1_digest_determinism envA envB rfl rfl rfl rfl rfl rfl
  exact ⟨rfl, h.1, h.2.1 rfl rfl rfl rfl⟩

/-- Claim C5: the chosen new-seed length is ceil(poolsize / 8) clamped
    into [32, 512]; 128 bits yield 32 bytes, 2048 bits yield 256
    bytes, 8192 bits yield 512 bytes, and an unreadable pool size
    falls back to the 32-byte minimum. -/
theorem claim5_seed_len :
    (∀ ps, 32 ≤ determine_optimal_seed_len ps ∧ determine_optimal_seed_len ps ≤ 512)
    ∧ (∀ bits, determine_optimal_seed_len (some bits) = min 512 (max 32 ((bits + 7) / 8)))
    ∧ determine_optimal_seed_len (some 128) = 32
    ∧ determine_optimal_seed_len (some 2048) = 256
    ∧ determine_optimal_seed_len (some 8192) = 512
    ∧ determine_optimal_seed_len none = 32 := by
  refine ⟨fun ps => ?_, fun bits => ?_, by decide, by decide, by decide, by decide⟩
  · cases ps <;> simp only [determine_optimal_seed_len] <;> split_ifs <;> omega
  · simp only [determine_optimal_seed_len]
    split_ifs <;> omega

/-- Claim C8: on every run that reaches the hashing phase, the
    persisted buffer is the new-seed content with exactly its trailing
    32 bytes overwritten by the finalize digest: its length is the
    seed length L, its first L − 32 bytes are the entropy-source (or
    failure-marker) bytes unchanged, and its last 32 bytes are the
    digest. -/
theorem claim8_digest_frame (env : Env)
    (h1 : env.isRoot = true) (h2 : env.mkdirOk = true) (h3 : env.lockOk = true) :
    (runSeedrng env).finalBuf = some (writtenOf env)
    ∧ (writtenOf env).length = seedLenOf env
    ∧ (writtenOf env).take (seedLenOf env - 32)
        = (newContentOf env).take (seedLenOf env - 32)
    ∧ (writtenOf env).drop (seedLenOf env - 32) = digestOf env
    ∧ 32 ≤ seedLenOf env :=
  ⟨run_finalBuf env h1 h2 h3, (written_frame env).1, (written_frame env).2.1,
    (written_frame env).2.2, seedLen_ge env⟩

theorem claim8_witness :
    envA.isRoot = true
    ∧ (runSeedrng envA).finalBuf = some (writtenOf envA)
    ∧ (writtenOf envA).drop (seedLenOf envA - 32) = digestOf envA := by
  have h := claim8_digest_frame envA rfl rfl rfl
  exact ⟨rfl, h.1, h.2.2.2.1⟩

/-- Claim C2: when obtaining the new seed fails, bit 3 (value 8) of
    the exit status is set, the new-seed content becomes the fixed
    failure-marker string with length 32, hashing still runs and
    persistence is still attempted, and when persistence succeeds the
    written file's trailing 32 bytes equal the finalize digest over
    (prefix, times, consumed old seeds, the marker with its length). -/
theorem claim2_generation_fallback (env : Env)
    (h1 : env.isRoot = true) (h2 : env.mkdirOk = true) (h3 : env.lockOk = true)
    (hg : env.newSeed = none) :
    (runSeedrng env).exit.testBit 3 = true
    ∧ seedLenOf env = 32
    ∧ newContentOf env = failureMarker
    ∧ (runSeedrng env).finalBuf = some (writtenOf env)
    ∧ hasWriteEvent (runSeedrng env).trace = env.openForWriteOk
    ∧ (env.openForWriteOk = true → env.writeOk = true →
        Event.writeFile nonCreditableSeedName (writtenOf env) ∈ (runSeedrng env).trace
        ∧ (writtenOf env).drop ((writtenOf env).length - 32)
            = seedrngDigest env.realtimeBytes env.boottimeBytes (oldsOf env) failureMarker) := by
  refine ⟨?_, by simp [seedLenOf, hg], by simp [newContentOf, hg],
    run_finalBuf env h1 h2 h3, run_write_attempt env h1 h2 h3, ?_⟩
  · rw [run_exit env h1 h2 h3]
    by_cases f1 : consumeFails (dirGet env.dir0 nonCreditableSeedName) env.ce1 <;>
      by_cases f2 : consumeFails (dirGet env.dir0 creditableSeedName) env.ce2 <;>
      by_cases c4 : env.openForWriteOk <;> by_cases c5 : env.writeOk <;>
      by_cases c6 : env.newSeedCreditable <;> by_cases c7 : env.renameOk <;>
      simp [hg, f1, f2, c4, c5, c6, c7] <;> decide
  · intro ho hw
    refine ⟨run_write_mem env h1 h2 h3 ho hw, ?_⟩
    rw [(written_frame env).1, (written_frame env).2.2]
    simp [digestOf, newContentOf, hg]

theorem claim2_witness :
    (runSeedrng envGenFail).exit.testBit 3 = true
    ∧ newContentOf envGenFail = failureMarker
    ∧ (runSeedrng envGenFail).finalBuf = some (writtenOf envGenFail) := by
  have h := claim2_generation_fallback envGenFail rfl rfl rfl rfl
  exact ⟨h.1, h.2.2.1, h.2.2.2.1⟩

/-- Claim C3 as stated is false on the code: in a run where only the
    open-for-write syscall fails, bit 4 is set, yet the write and
    promotion steps — later steps — are never attempted, although the
    claim asserts that after any bit failure every later step is still
    attempted. -/
theorem claim3_counterexample :
    (runSeedrng envOpenFail).exit = 16
    ∧ (runSeedrng envOpenFail).exit.testBit 4 = true
    ∧ hasWriteEvent (runSeedrng envOpenFail).trace = false
    ∧ hasRenameEvent (runSeedrng envOpenFail).trace = false
    ∧ envOpenFail.writeOk = true ∧ envOpenFail.renameOk = true
    ∧ envOpenFail.newSeedCreditable = true := by
  refine ⟨?_, ?_, ?_, ?_, rfl, rfl, rfl⟩
  · rw [run_exit envOpenFail rfl rfl rfl]
    decide
  · rw [run_exit envOpenFail rfl rfl rfl]
    decide
  · rw [run_write_attempt envOpenFail rfl rfl rfl]
    decide
  · rw [run_rename_attempt envOpenFail rfl rfl rfl]
    decide

/-- Claim C3 (amended): the exit status is a bitmask with the distinct
    bits 2/4/8/16/32/64 for the six failure kinds, 0 means full
    success, and privilege or directory/lock failures are immediately
    fatal; consumption and generation failures do not stop later steps
    (the write is attempted whenever the open succeeds), but an
    open-for-write failure skips the write and the promotion, and a
    write failure skips the promotion. -/
theorem claim3_exit_bitmask (env : Env)
    (h1 : env.isRoot = true) (h2 : env.mkdirOk = true) (h3 : env.lockOk = true) :
    (runSeedrng env).exit
      = (if consumeFails (dirGet env.dir0 nonCreditableSeedName) env.ce1 then 2 else 0)
        + (if consumeFails (dirGet env.dir0 creditableSeedName) env.ce2 then 4 else 0)
        + (if env.newSeed = none then 8 else 0)
        + (if env.openForWriteOk then 0 else 16)
        + (if env.openForWriteOk = true ∧ env.writeOk = false then 32 else 0)
        + (if env.openForWriteOk = true ∧ env.writeOk = true ∧ env.newSeedCreditable = true
              ∧ env.renameOk = false then 64 else 0)
    ∧ ((runSeedrng env).exit = 0 ↔
        consumeFails (dirGet env.dir0 nonCreditableSeedName) env.ce1 = false
        ∧ consumeFails (dirGet env.dir0 creditableSeedName) env.ce2 = false
        ∧ ¬env.newSeed = none
        ∧ env.openForWriteOk = true ∧ env.writeOk = true
        ∧ (env.newSeedCreditable = true → env.renameOk = true))
    ∧ hasWriteEvent (runSeedrng env).trace = env.openForWriteOk
    ∧ hasRenameEvent (runSeedrng env).trace
        = (env.openForWriteOk && (env.writeOk && env.newSeedCreditable))
    ∧ ∀ e : Env, e.isRoot = false ∨ e.mkdirOk = false ∨ e.lockOk = false →
        runSeedrng e = ⟨1, e.dir0, [], none, none⟩ := by
  refine ⟨run_exit env h1 h2 h3, ?_, run_write_attempt env h1 h2 h3,
    run_rename_attempt env h1 h2 h3, fun e he => run_fatal e he⟩
  rw [run_exit env h1 h2 h3]
  by_cases f1 : consumeFails (dirGet env.dir0 nonCreditableSeedName) env.ce1 <;>
    by_cases f2 : consumeFails (dirGet env.dir0 creditableSeedName) env.ce2 <;>
    by_cases g : env.newSeed = none <;>
    by_cases c4 : env.openForWriteOk <;> by_cases c5 : env.writeOk <;>
    by_cases c6 : env.newSeedCreditable <;> by_cases c7 : env.renameOk <;>
    simp [f1, f2, g, c4, c5, c6, c7]

theorem claim3_witness :
    hasWriteEvent (runSeedrng envOpenFail).trace = envOpenFail.openForWriteOk
    ∧ (runSeedrng envA).exit = 0 := by
  refine ⟨(claim3_exit_bitmask envOpenFail rfl rfl rfl).2.2.1, ?_⟩
  rw [(claim3_exit_bitmask envA rfl rfl rfl).2.1]
  refine ⟨by decide, by decide, by decide, rfl, rfl, fun _ => rfl⟩

/-- Claim C4: skip_credit is active exactly for the value "1" or the
    case-insensitive values "true", "yes", "y"; when active, no kernel
    submission of the run carries a nonzero entropy-credit count, even
    when seed.credit is consumed; when inactive, a consumed creditable
    seed is submitted with credit length*8. -/
theorem claim4_skip_credit (env : Env) (v : Option String)
    (h1 : env.isRoot = true) (h2 : env.mkdirOk = true) (h3 : env.lockOk = true) :
    (skip_credit v = true ↔ skipActiveSpec v)
    ∧ (skip_credit env.skipVar = true →
        ∀ c ∈ submitCredits (runSeedrng env).trace, c = 0)
    ∧ (skip_credit env.skipVar = false →
        ∀ content, dirGet env.dir0 creditableSeedName = some content →
          env.ce2.openFails = false → env.ce2.readFails = false →
          env.ce2.unlinkFails = false → env.ce2.fsyncFails = false → ¬content = [] →
          Event.submit (content.take 512) ((content.take 512).length * 8)
            ∈ (runSeedrng env).trace) := by
  refine ⟨?_, ?_, ?_⟩
  · cases v with
    | none => simp [skip_credit, skipActiveSpec]
    | some s =>
      have e1 : ("true").data.map asciiLowerChar = ("true").data := by decide
      have e2 : ("yes").data.map asciiLowerChar = ("yes").data := by decide
      have e3 : ("y").data.map asciiLowerChar = ("y").data := by decide
      simp [skip_credit, skipActiveSpec, strcaseEq, e1, e2, e3]
      tauto
  · intro hskip c hc
    rw [run_trace_submits env h1 h2 h3] at hc
    rcases List.mem_append.mp hc with hm | hm
    · exact consume_credit_false_zero nonCreditableSeedName env.ce1 env.dir0
        (hashAfterClocks env) c hm
    · have hc2 : consume2 env = seed_from_file_if_exists creditableSeedName false env.ce2
          (consume1 env).dir (consume1 env).hash := by
        simp [consume2, hskip]
      rw [hc2] at hm
      exact consume_credit_false_zero creditableSeedName env.ce2 (consume1 env).dir
        (consume1 env).hash c hm
  · intro hskip content hd ho1 ho2 ho3 ho4 hne
    have hd2 : dirGet (consume1 env).dir creditableSeedName = some content := by
      rw [consume2_dirGet env, hd]
    have hmem := consume_submit_mem creditableSeedName (!skip_credit env.skipVar) env.ce2
      (consume1 env).dir (consume1 env).hash content hd2 ho1 ho2 ho3 ho4 hne
    rw [hskip] at hmem
    simp only [Bool.not_false, if_true, ite_true] at hmem
    have hce : consume2 env = seed_from_file_if_exists creditableSeedName true env.ce2
        (consume1 env).dir (consume1 env).hash := by
      simp [consume2, hskip]
    exact run_trace_mem env h1 h2 h3 _ (by rw [hce]; exact hmem)

theorem claim4_witness :
    (skip_credit (some ("YES")) = true ↔ skipActiveSpec (some ("YES")))
    ∧ (∀ c ∈ submitCredits (runSeedrng envSkip).trace, c = 0)
    ∧ Event.submit (([1, 2, 3] : List Nat).take 512) ((([1, 2, 3] : List Nat).take 512).length * 8)
        ∈ (runSeedrng envNoSkip).trace := by
  refine ⟨(claim4_skip_credit envSkip (some ("YES")) rfl rfl rfl).1, ?_, ?_⟩
  · exact (claim4_skip_credit envSkip (some ("YES")) rfl rfl rfl).2.1 (by decide)
  · exact (claim4_skip_credit envNoSkip none rfl rfl rfl).2.2 rfl [1, 2, 3] rfl rfl rfl rfl
      rfl (by decide)

/-- Claim C6: a consume of a present file (with the unlink and
    directory flush succeeding) removes it before its bytes are used,
    so a second consume of the same name finds it absent and returns
    no data; an absent file is a success returning no data; and if the
    unlink or flush fails while non-empty data was read, the call is a
    hard error that absorbs nothing into the hash and submits nothing
    to the kernel. -/
theorem claim6_consumption (name : String) (credit credit' : Bool) (ce ce' : ConsumeEnv)
    (d : Dir) (hash hash' : Blake2sState) (content : List Nat) :
    (dirGet d name = some content → ce.openFails = false → ce.readFails = false →
      ce.unlinkFails = false → ce.fsyncFails = false →
      dirGet (seed_from_file_if_exists name credit ce d hash).dir name = none
      ∧ seed_from_file_if_exists name credit' ce'
          (seed_from_file_if_exists name credit ce d hash).dir hash'
        = ⟨true, (seed_from_file_if_exists name credit ce d hash).dir, hash', []⟩)
    ∧ (dirGet d name = none →
        seed_from_file_if_exists name credit ce d hash = ⟨true, d, hash, []⟩)
    ∧ ((ce.unlinkFails = true ∨ ce.fsyncFails = true) → ¬content = [] →
        dirGet d name = some content →
        (seed_from_file_if_exists name credit ce d hash).ok = false
        ∧ (seed_from_file_if_exists name credit ce d hash).hash = hash
        ∧ hasSubmitEvent (seed_from_file_if_exists name credit ce d hash).events = false) := by
  refine ⟨?_, fun hd => consume_absent name credit ce d hash hd, ?_⟩
  · intro hd f1 f2 f3 f4
    have hdir : dirGet (seed_from_file_if_exists name credit ce d hash).dir name = none := by
      by_cases h5 : content = [] <;> by_cases h6 : ce.submitFails <;>
        simp [seed_from_file_if_exists, hd, f1, f2, f3, f4, h5, h6, dirRemove_get_self]
    exact ⟨hdir, consume_absent _ _ _ _ _ hdir⟩
  · intro hf hne hd
    rcases hf with hf | hf
    · by_cases f1 : ce.openFails <;> by_cases f2 : ce.readFails <;>
        simp [seed_from_file_if_exists, hd, hf, hne, f1, f2, hasSubmitEvent]
    · by_cases f1 : ce.openFails <;> by_cases f2 : ce.readFails <;>
        by_cases f3 : ce.unlinkFails <;>
        simp [seed_from_file_if_exists, hd, hf, hne, f1, f2, f3, hasSubmitEvent]

theorem claim6_witness :
    (dirGet (seed_from_file_if_exists creditableSeedName true ceOk dirC6
        (blake2s_init 32)).dir creditableSeedName = none
      ∧ seed_from_file_if_exists creditableSeedName false ceOk
          (seed_from_file_if_exists creditableSeedName true ceOk dirC6
            (blake2s_init 32)).dir (blake2s_init 32)
        = ⟨true, (seed_from_file_if_exists creditableSeedName true ceOk dirC6
            (blake2s_init 32)).dir, blake2s_init 32, []⟩)
    ∧ seed_from_file_if_exists creditableSeedName true ceOk [] (blake2s_init 32)
        = ⟨true, [], blake2s_init 32, []⟩
    ∧ ((seed_from_file_if_exists creditableSeedName true ceUnlinkFail dirC6
          (blake2s_init 32)).ok = false
        ∧ (seed_from_file_if_exists creditableSeedName true ceUnlinkFail dirC6
            (blake2s_init 32)).hash = blake2s_init 32
        ∧ hasSubmitEvent (seed_from_file_if_exists creditableSeedName true ceUnlinkFail dirC6
            (blake2s_init 32)).events = false) := by
  refine ⟨?_, ?_, ?_⟩
  · exact (claim6_consumption creditableSeedName true false ceOk ceOk dirC6
      (blake2s_init 32) (blake2s_init 32) [5, 6, 7]).1 rfl rfl rfl rfl rfl
  · exact (claim6_consumption creditableSeedName true false ceOk ceOk []
      (blake2s_init 32) (blake2s_init 32) []).2.1 rfl
  · exact (claim6_consumption creditableSeedName true false ceUnlinkFail ceOk dirC6
      (blake2s_init 32) (blake2s_init 32) [5, 6, 7]).2.2 (Or.inl rfl) (by decide) rfl

/-- Claim C7: the new-seed read is creditable on success exactly when
    the non-blocking getrandom delivered all bytes or getrandom is
    unsupported (ENOSYS) and a zero-timeout poll of /dev/random
    reported data ready (the bytes then coming from the /dev/urandom
    fallback); bytes from the GRND_INSECURE read are never creditable;
    and when the final fallback cannot deliver the bytes the call
    fails. -/
theorem claim7_entropy_adapter (env : RngEnv) (len : Nat) :
    ((read_new_seed env len).result.isSome = true →
      ((read_new_seed env len).creditable = true ↔
        (env.nonblockRes.isOk = true
          ∨ (env.nonblockRes = SysRes.err ENOSYS ∧ env.pollReady = true))))
    ∧ (∀ bs, env.nonblockRes = SysRes.err ENOSYS → env.devRandomOpenOk = true →
        env.urandomOpenOk = true → env.urandomRes = some bs →
        (read_new_seed env len).result = some (fitBytes bs len))
    ∧ (∀ e bs, env.nonblockRes = SysRes.err e → ¬e = ENOSYS →
        env.insecureRes = SysRes.ok bs →
        read_new_seed env len = ⟨some (fitBytes bs len), false⟩)
    ∧ (env.nonblockRes.isOk = false → env.insecureRes.isOk = false →
        (env.urandomOpenOk = false ∨ env.urandomRes = none) →
        (read_new_seed env len).result = none) := by
  refine ⟨?_, ?_, ?_, ?_⟩
  · cases hnb : env.nonblockRes with
    | ok bs => simp [read_new_seed, hnb, SysRes.isOk]
    | err e =>
      by_cases he : e = ENOSYS
      · subst he
        by_cases hdo : env.devRandomOpenOk
        · by_cases huo : env.urandomOpenOk
          · cases hur : env.urandomRes <;>
              simp [read_new_seed, hnb, hdo, huo, hur, SysRes.isOk]
          · simp [read_new_seed, hnb, hdo, huo, SysRes.isOk]
        · simp [read_new_seed, hnb, hdo, SysRes.isOk]
      · cases hins : env.insecureRes with
        | ok bs => simp [read_new_seed, hnb, he, hins, SysRes.isOk]
        | err e2 =>
          by_cases huo : env.urandomOpenOk
          · cases hur : env.urandomRes <;>
              simp [read_new_seed, hnb, he, hins, huo, hur, SysRes.isOk]
          · simp [read_new_seed, hnb, he, hins, huo, SysRes.isOk]
  · intro bs hnb hdo huo hur
    simp [read_new_seed, hnb, hdo, huo, hur]
  · intro e bs hnb hne hins
    simp [read_new_seed, hnb, hne, hins]
  · intro hnb hins hu
    cases h : env.nonblockRes with
    | ok bs => simp [h, SysRes.isOk] at hnb
    | err e =>
      by_cases he : e = ENOSYS
      · subst he
        by_cases hdo : env.devRandomOpenOk
        · rcases hu with hu | hu <;> simp [read_new_seed, h, hdo, hu]
        · simp [read_new_seed, h, hdo]
      · cases hi : env.insecureRes with
        | ok bs => simp [hi, SysRes.isOk] at hins
        | err e2 => rcases hu with hu | hu <;> simp [read_new_seed, h, he, hi, hu]

theorem claim7_witness :
    ((read_new_seed rngA 3).creditable = true ↔
      (rngA.nonblockRes.isOk = true
        ∨ (rngA.nonblockRes = SysRes.err ENOSYS ∧ rngA.pollReady = true)))
    ∧ (read_new_seed rngEnosys 3).result = some (fitBytes [4, 5, 6] 3)
    ∧ read_new_seed rngInsecure 3 = ⟨some (fitBytes [7, 7] 3), false⟩
    ∧ (read_new_seed rngDead 3).result = none := by
  refine ⟨?_, ?_, ?_, ?_⟩
  · exact (claim7_entropy_adapter rngA 3).1 (by decide)
  · exact (claim7_entropy_adapter rngEnosys 3).2.1 [4, 5, 6] rfl rfl rfl rfl
  · exact (claim7_entropy_adapter rngInsecure 3).2.2.1 11 [7, 7] rfl (by decide) rfl
  · exact (claim7_entropy_adapter rngDead 3).2.2.2 (by decide) (by decide) (Or.inr rfl)

/-- Claim C9: starting from an empty seed directory with skip-credit
    unset, a healthy creditable entropy source and successful
    persistence, the run exits 0, writes the new seed to
    seed.no-credit and then renames it to seed.credit, so afterward
    seed.credit holds the written bytes and seed.no-credit is absent;
    and whenever the new seed is not creditable or persistence failed,
    no rename is attempted. -/
theorem claim9_promotion (env : Env)
    (h1 : env.isRoot = true) (h2 : env.mkdirOk = true) (h3 : env.lockOk = true)
    (hdir : env.dir0 = []) (bs : List Nat) (hn : env.newSeed = some bs)
    (hcr : env.newSeedCreditable = true) (ho : env.openForWriteOk = true)
    (hw : env.writeOk = true) (hr : env.renameOk = true) :
    (runSeedrng env).exit = 0
    ∧ (runSeedrng env).trace
        = [Event.writeFile nonCreditableSeedName (writtenOf env),
           Event.renameFile nonCreditableSeedName creditableSeedName]
    ∧ dirGet (runSeedrng env).dir creditableSeedName = some (writtenOf env)
    ∧ dirGet (runSeedrng env).dir nonCreditableSeedName = none
    ∧ ∀ e : Env, e.isRoot = true → e.mkdirOk = true → e.lockOk = true →
        (e.newSeedCreditable = false ∨ e.openForWriteOk = false ∨ e.writeOk = false) →
        hasRenameEvent (runSeedrng e).trace = false := by
  have hget1 : dirGet env.dir0 nonCreditableSeedName = none := by rw [hdir]; rfl
  have hget2 : dirGet env.dir0 creditableSeedName = none := by rw [hdir]; rfl
  have hc1 : consume1 env = ⟨true, env.dir0, hashAfterClocks env, []⟩ :=
    consume_absent _ _ _ _ _ hget1
  have hd1 : (consume1 env).dir = env.dir0 := by rw [hc1]
  have hc2 : consume2 env = ⟨true, (consume1 env).dir, (consume1 env).hash, []⟩ :=
    consume_absent _ _ _ _ _ (by rw [hd1, hget2])
  have hdirfinal : (runSeedrng env).dir
      = dirSet (dirRemove (dirSet (consume2 env).dir nonCreditableSeedName (writtenOf env))
          nonCreditableSeedName) creditableSeedName (writtenOf env) := by
    simp [runSeedrng, h1, h2, h3, ho, hw, hcr, hr, writtenOf, finalHash_digest]
  have hncm : ¬nonCreditableSeedName = creditableSeedName := by decide
  refine ⟨?_, ?_, ?_, ?_, ?_⟩
  · rw [run_exit env h1 h2 h3]
    simp [hget1, hget2, hn, ho, hw, hcr, hr, consumeFails]
  · simp [runSeedrng, h1, h2, h3, ho, hw, hcr, hr, hc1, hc2, writtenOf, finalHash_digest]
  · rw [hdirfinal, dirSet_get_self]
  · rw [hdirfinal, dirSet_get_ne _ _ _ _ hncm, dirRemove_get_self]
  · intro e e1 e2 e3 hcase
    rw [run_rename_attempt e e1 e2 e3]
    rcases hcase with hx | hx | hx <;> simp [hx]

theorem claim9_witness :
    (runSeedrng envA).exit = 0
    ∧ dirGet (runSeedrng envA).dir creditableSeedName = some (writtenOf envA)
    ∧ dirGet (runSeedrng envA).dir nonCreditableSeedName = none := by
  have h := claim9_promotion envA rfl rfl rfl rfl [9, 9, 9] rfl rfl rfl rfl rfl
  exact ⟨h.1, h.2.2.1, h.2.2.2.1⟩

end Seedrng
